import Mathlib

/-!
Shallow embedding of the Eventbrite proxy (`src/server.js`, detailed revision):
the retrying fetcher `fetchWithRetry`, the per-event ticket enrichment
`getEventTicketInfo`, the month filter and TTL cache of the `/api/events`
handler.  JavaScript numbers that can become `Infinity` or `NaN` in this code
are modelled by `JNum`; JavaScript `null`/`undefined` by `Option`; the
process timezone is taken to be UTC (the container default), so
`Date.prototype.getFullYear`/`getMonth` coincide with the UTC fields of the
parsed ISO-8601 timestamps delivered by the upstream API.
-/

/-- JavaScript number as it occurs in the ticket-price computations:
a finite rational, `Infinity`, or `NaN`. -/
inductive JNum where
  | fin (q : Rat)
  | inf
  | nan
deriving DecidableEq, Repr

/-- Digit list to natural number, most significant first. -/
def digitsToNat (ds : List Char) : Nat :=
  ds.foldl (fun acc c => acc * 10 + (c.toNat - 48)) 0

/-- Decimal mantissa of `parseFloat`: longest prefix `digits [ '.' digits ]`;
`none` when it contains no digit (JS `NaN`). -/
def readDecimal (cs : List Char) : Option Rat :=
  let intDs := cs.takeWhile Char.isDigit
  let cs1 := cs.dropWhile Char.isDigit
  match cs1 with
  | '.' :: cs2 =>
    let fracDs := cs2.takeWhile Char.isDigit
    if intDs = [] ∧ fracDs = [] then none
    else some ((digitsToNat intDs : Rat) + (digitsToNat fracDs : Rat) / (10 : Rat) ^ fracDs.length)
  | _ => if intDs = [] then none else some (digitsToNat intDs : Rat)

/-- Model of JavaScript `parseFloat` on the strings this code feeds it
(optional sign, then a decimal prefix; trailing junk ignored; `NaN` when no
number can be read). -/
def jsParseFloat (s : String) : JNum :=
  match s.data with
  | '-' :: rest =>
    match readDecimal rest with
    | some q => .fin (-q)
    | none => .nan
  | '+' :: rest =>
    match readDecimal rest with
    | some q => .fin q
    | none => .nan
  | rest =>
    match readDecimal rest with
    | some q => .fin q
    | none => .nan

/-- `display.replace(/[^\d.-]/g, '')` : keep only digits, `.` and `-`. -/
def stripNonNumeric (s : String) : String :=
  ⟨s.data.filter (fun c => c.isDigit ∨ c = '.' ∨ c = '-')⟩

/-- First match of `/[\d,]+\.?\d*/` in a display string:
from the first digit-or-comma, the maximal run of digits/commas, then an
optional dot followed by a maximal digit run. -/
def displayRegexMatch (s : String) : Option String :=
  go s.data
where
  takeMatch (cs : List Char) : List Char :=
    let run1 := cs.takeWhile (fun c => c.isDigit ∨ c = ',')
    let cs1 := cs.dropWhile (fun c => c.isDigit ∨ c = ',')
    match cs1 with
    | '.' :: cs2 => run1 ++ '.' :: cs2.takeWhile Char.isDigit
    | _ => run1
  go : List Char → Option String
    | [] => none
    | c :: cs =>
      if c.isDigit ∨ c = ',' then some ⟨takeMatch (c :: cs)⟩ else go cs

/-- `String.prototype.replace(',', '')` : removes only the first comma. -/
def removeFirstComma (s : String) : String :=
  ⟨go s.data⟩
where
  go : List Char → List Char
    | [] => []
    | c :: cs => if c = ',' then cs else c :: go cs

/-- The `cost` object of an Eventbrite ticket class (`display` formatted
string, `value` in minor units). -/
structure Cost where
  display : Option String
  value : Option Rat
deriving DecidableEq, Repr

/-- One element of `response.data.ticket_classes` with the fields the code
reads. -/
structure TicketClass where
  cost : Option Cost
  currency : Option String
  free : Option Bool
  hidden : Option Bool
  on_sale_status : Option String
  quantity_total : Option Nat
  quantity_sold : Option Nat
deriving DecidableEq, Repr

/-- The `ticket_info` object attached to each event.  `error` is the
`error: 'No disponible'` marker of a failed enrichment. -/
structure TicketInfo where
  base_price : Option JNum
  currency : String
  available_tickets : Option Int
  total_tickets : Option Int
  is_free : Option Bool
  error : Option String
deriving DecidableEq, Repr

/-- `ticket.cost?.display` truthiness: a present, non-empty display string. -/
def displayOf (t : TicketClass) : Option String :=
  match t.cost with
  | some c =>
    match c.display with
    | some d => if d = "" then none else some d
    | none => none
  | none => none

/-- `ticket.cost?.value` truthiness: a present, non-zero value. -/
def valueOf (t : TicketClass) : Option Rat :=
  match t.cost with
  | some c =>
    match c.value with
    | some v => if v = 0 then none else some v
    | none => none
  | none => none

/-- The comparator key `getPriceValue` of the sort in `getEventTicketInfo`:
`parseFloat` of the stripped display if the display is truthy, else the raw
`cost.value` (not divided by 100), else `0` for a free ticket and `Infinity`
otherwise. -/
def getPriceValue (t : TicketClass) : JNum :=
  match displayOf t with
  | some d => jsParseFloat (stripNonNumeric d)
  | none =>
    match valueOf t with
    | some v => .fin v
    | none => if t.free = some true then .fin 0 else .inf

/-- `a` stays before `b` under the JS numeric comparator `priceA - priceB`:
true when the difference is `≤ 0` or `NaN` (V8 treats a `NaN` comparator
result like `0`, leaving the stable order unchanged). -/
def jnumLe : JNum → JNum → Bool
  | .nan, _ => true
  | _, .nan => true
  | .inf, .inf => true
  | .fin _, .inf => true
  | .inf, .fin _ => false
  | .fin a, .fin b => a ≤ b

/-- Stable insertion into a sorted list: the new element goes before the
first element it compares `le` to. -/
def insertSorted (le : α → α → Bool) (a : α) : List α → List α
  | [] => [a]
  | b :: l => if le a b then a :: b :: l else b :: insertSorted le a l

/-- Stable sort; agrees with `Array.prototype.sort` (stable since ES2019)
whenever the comparator is consistent. -/
def sortByJs (le : α → α → Bool) : List α → List α
  | [] => []
  | a :: l => insertSorted le a (sortByJs le l)

/-- `ticketClasses.filter(ticket => !ticket.hidden)`. -/
def visibleTickets (tcs : List TicketClass) : List TicketClass :=
  tcs.filter (fun t => ¬ t.hidden = some true)

/-- `visibleTickets.length > 0 ? visibleTickets : ticketClasses`. -/
def ticketsToAnalyze (tcs : List TicketClass) : List TicketClass :=
  if (visibleTickets tcs).length > 0 then visibleTickets tcs else tcs

/-- The on-sale subset: `on_sale_status` equal to `AVAILABLE` or
`SALE_SCHEDULED`, taken from `ticketsToAnalyze`. -/
def availableTicketsOf (tcs : List TicketClass) : List TicketClass :=
  (ticketsToAnalyze tcs).filter
    (fun t => t.on_sale_status = some "AVAILABLE" ∨ t.on_sale_status = some "SALE_SCHEDULED")

/-- `availableTickets.length > 0 ? availableTickets : ticketsToAnalyze`. -/
def ticketsForPrice (tcs : List TicketClass) : List TicketClass :=
  if (availableTicketsOf tcs).length > 0 then availableTicketsOf tcs else ticketsToAnalyze tcs

/-- The list sorted by the comparator `(a, b) => priceA - priceB`. -/
def sortedForPrice (tcs : List TicketClass) : List TicketClass :=
  sortByJs (fun a b => jnumLe (getPriceValue a) (getPriceValue b)) (ticketsForPrice tcs)

/-- A placeholder ticket; `cheapestTicket` is only consulted on non-empty
lists, where the placeholder is irrelevant. -/
def defaultTicket : TicketClass :=
  ⟨none, none, none, none, none, none, none⟩

/-- `ticketsForPrice[0]` after the in-place sort. -/
def cheapestTicket (tcs : List TicketClass) : TicketClass :=
  (sortedForPrice tcs).headD defaultTicket

/-- The `basePrice` extraction from the cheapest ticket: `free === true`
forces `0`; else a truthy display is matched by `/[\d,]+\.?\d*/`, the first
comma removed and the result `parseFloat`ed (staying `0` when the regex does
not match); else a truthy `cost.value` is divided by 100; else `0`. -/
def extractBasePrice (t : TicketClass) : JNum :=
  if t.free = some true then .fin 0
  else
    match displayOf t with
    | some d =>
      match displayRegexMatch d with
      | some m => jsParseFloat (removeFirstComma m)
      | none => .fin 0
    | none =>
      match valueOf t with
      | some v => .fin (v / 100)
      | none => .fin 0

/-- `cheapestTicket.currency || 'MXN'`. -/
def currencyOr (o : Option String) : String :=
  match o with
  | some c => if c = "" then "MXN" else c
  | none => "MXN"

/-- `reduce((sum, ticket) => sum + Math.max(0, total - sold), 0)` with the
`|| 0` defaults on the quantities. -/
def sumMaxAvail (l : List TicketClass) : Int :=
  l.foldl
    (fun sum t =>
      sum + max 0 ((t.quantity_total.getD 0 : Int) - (t.quantity_sold.getD 0 : Int)))
    0

/-- `reduce((sum, ticket) => sum + (ticket.quantity_total || 0), 0)`. -/
def sumTotal (l : List TicketClass) : Int :=
  l.foldl (fun sum t => sum + (t.quantity_total.getD 0 : Int)) 0

/-- `totalAvailable > 0 ? totalAvailable : <same sum over all classes>`. -/
def finalAvailable (tcs : List TicketClass) : Int :=
  if sumMaxAvail (availableTicketsOf tcs) > 0 then sumMaxAvail (availableTicketsOf tcs)
  else sumMaxAvail tcs

/-- The ticket-info computation of `getEventTicketInfo` on a successfully
fetched `ticket_classes` list. -/
def computeTicketInfo (tcs : List TicketClass) : TicketInfo :=
  if tcs.length = 0 then
    { base_price := some (.fin 0), currency := "MXN", available_tickets := some 0,
      total_tickets := some 0, is_free := some true, error := none }
  else if (ticketsForPrice tcs).length = 0 then
    { base_price := some (.fin 0),
      currency := currencyOr ((tcs.head?).bind (·.currency)),
      available_tickets := some 0, total_tickets := some (sumTotal tcs),
      is_free := some true, error := none }
  else
    let cheapest := cheapestTicket tcs
    let basePrice := extractBasePrice cheapest
    { base_price := some basePrice,
      currency := currencyOr cheapest.currency,
      available_tickets := some (finalAvailable tcs),
      total_tickets := some (sumTotal tcs),
      is_free := some (decide (basePrice = .fin 0) || decide (cheapest.free = some true)),
      error := none }

/-- The secondary (ticket classes) response body:
`response.data.ticket_classes || []`. -/
structure TCResp where
  ticket_classes : Option (List TicketClass)
deriving Repr

/-- The degraded ticket info returned by the `catch` block of
`getEventTicketInfo`. -/
def failedTicketInfo : TicketInfo :=
  { base_price := none, currency := "MXN", available_tickets := none,
    total_tickets := none, is_free := none, error := some "No disponible" }

/-- `getEventTicketInfo`, as a function of the settled outcome of its
(retried) ticket-classes fetch. -/
def getEventTicketInfo (outcome : Except Unit TCResp) : TicketInfo :=
  match outcome with
  | .error _ => failedTicketInfo
  | .ok r => computeTicketInfo (r.ticket_classes.getD [])

/-- A JSON-ish JavaScript value as it appears in event objects.  The
`tinfo` case shallowly embeds the attached `ticket_info` object. -/
inductive JVal where
  | str (s : String)
  | num (q : Rat)
  | bool (b : Bool)
  | null
  | obj (fields : List (String × JVal))
  | arr (xs : List JVal)
  | tinfo (ti : TicketInfo)

/-- An upstream event object: an ordered list of key/value fields. -/
abbrev EObj := List (String × JVal)

/-- Property read on an object's field list (keys are unique in JS objects;
the first binding is taken). -/
def getField : List (String × JVal) → String → Option JVal
  | [], _ => none
  | (k', v') :: rest, k => if k' = k then some v' else getField rest k

/-- Semantics of `{...event, ticket_info: v}`: an existing key is
overwritten in place, a new key is appended last. -/
def setField : List (String × JVal) → String → JVal → List (String × JVal)
  | [], k, v => [(k, v)]
  | (k', v') :: rest, k, v =>
    if k' = k then (k, v) :: rest else (k', v') :: setField rest k v

/-- JavaScript falsiness of a value (`undefined` is handled by `Option`
at the call sites). -/
def jvalFalsy : JVal → Bool
  | .str s => s = ""
  | .num q => q = 0
  | .bool b => b = false
  | .null => true
  | .obj _ => false
  | .arr _ => false
  | .tinfo _ => false

/-- Property read on an arbitrary value: `undefined` unless the value is an
object with that key. -/
def jget (v : JVal) (k : String) : Option JVal :=
  match v with
  | .obj fs => getField fs k
  | _ => none

/-- Gregorian leap year. -/
def isLeapYear (y : Nat) : Bool :=
  (y % 4 = 0 && y % 100 ≠ 0) || y % 400 = 0

/-- Days in a month, with leap-year handling. -/
def daysInMonth (y m : Nat) : Nat :=
  if m = 2 then (if isLeapYear y then 29 else 28)
  else if m = 4 ∨ m = 6 ∨ m = 9 ∨ m = 11 then 30
  else 31

/-- Read exactly `n` decimal digits. -/
def readNDigits : Nat → List Char → Nat → Option (Nat × List Char)
  | 0, cs, acc => some (acc, cs)
  | _ + 1, [], _ => none
  | n + 1, c :: cs, acc =>
    if c.isDigit then readNDigits n cs (acc * 10 + (c.toNat - 48)) else none

/-- Expect one given character. -/
def expectChar (ch : Char) : List Char → Option (List Char)
  | [] => none
  | c :: cs => if c = ch then some cs else none

/-- Optional `HH:MM:SS[.fff...]` time part ending the string, optionally
suffixed `Z`; returns `true` when well-formed. -/
def validTimePart (cs : List Char) : Bool :=
  match readNDigits 2 cs 0 with
  | none => false
  | some (h, cs) =>
    match expectChar ':' cs with
    | none => false
    | some cs =>
      match readNDigits 2 cs 0 with
      | none => false
      | some (mi, cs) =>
        match expectChar ':' cs with
        | none => false
        | some cs =>
          match readNDigits 2 cs 0 with
          | none => false
          | some (sec, cs) =>
            let cs :=
              match cs with
              | '.' :: cs2 =>
                if (cs2.takeWhile Char.isDigit) = [] then '.' :: cs2
                else cs2.dropWhile Char.isDigit
              | _ => cs
            (h ≤ 23 && mi ≤ 59 && sec ≤ 59) &&
              match cs with
              | [] => true
              | ['Z'] => true
              | _ => false

/-- Year and month (1-based) of `new Date(s)` for the ISO-8601 UTC
timestamps delivered by the upstream API (`YYYY-MM-DD` optionally followed
by `THH:MM:SS[.fff]` and `Z`; the process runs in UTC).  `none` models an
`Invalid Date`, whose `getFullYear()` is `NaN` and compares unequal to
everything. -/
def parseIsoYM (s : String) : Option (Int × Int) :=
  match readNDigits 4 s.data 0 with
  | none => none
  | some (y, cs) =>
    match expectChar '-' cs with
    | none => none
    | some cs =>
      match readNDigits 2 cs 0 with
      | none => none
      | some (mo, cs) =>
        match expectChar '-' cs with
        | none => none
        | some cs =>
          match readNDigits 2 cs 0 with
          | none => none
          | some (d, cs) =>
            if 1 ≤ mo ∧ mo ≤ 12 ∧ 1 ≤ d ∧ d ≤ daysInMonth y mo then
              match cs with
              | [] => some (y, mo)
              | 'T' :: cs2 => if validTimePart cs2 then some (y, mo) else none
              | _ => none
            else none

/-- The year/month observation of an event used by the filter:
`event.start` and `event.start.utc` must be truthy, and `new Date(utc)`
must be a valid date; yields the (UTC) year and 1-based month. -/
def eventStartYM (ev : EObj) : Option (Int × Int) :=
  match getField ev "start" with
  | none => none
  | some sv =>
    if jvalFalsy sv then none
    else
      match jget sv "utc" with
      | none => none
      | some uv =>
        if jvalFalsy uv then none
        else
          match uv with
          | .str u => parseIsoYM u
          | _ => none

/-- The local month filter of the handler: keeps events whose parsed start
has `getFullYear() === yearNum && getMonth() === monthNum - 1`. -/
def filterEvents (events : List EObj) (yearNum monthNum : Int) : List EObj :=
  events.filter (fun ev =>
    match eventStartYM ev with
    | some (py, pm) => py = yearNum ∧ pm = monthNum
    | none => false)

/-- `{...event, ticket_info: await getEventTicketInfo(event.id, headers)}`,
as a function of the per-event ticket-fetch outcome oracle `tf` (keyed by
the event's `id` value). -/
def enrichOne (tf : Option JVal → Except Unit TCResp) (ev : EObj) : EObj :=
  setField ev "ticket_info" (.tinfo (getEventTicketInfo (tf (getField ev "id"))))

/-- `Promise.all(filteredEvents.map(...))`: one enrichment per event,
independent per event. -/
def enrichEvents (events : List EObj) (tf : Option JVal → Except Unit TCResp) : List EObj :=
  events.map (enrichOne tf)

/-- The error object seen by a failed axios attempt:
`error.response?.status` and `error.code`. -/
structure FetchErr where
  status : Option Int
  code : Option String
deriving DecidableEq, Repr

/-- The retry decision of `fetchWithRetry`: a 502/503/504 response status
or an `ECONNABORTED`/`ETIMEDOUT` code. -/
def shouldRetry (e : FetchErr) : Bool :=
  let isServerError :=
    match e.status with
    | some s => decide (s ≠ 0) && (decide (s = 502) || decide (s = 503) || decide (s = 504))
    | none => false
  let isTimeout := e.code = some "ECONNABORTED" || e.code = some "ETIMEDOUT"
  isServerError || isTimeout

/-- Observable behaviour of one `fetchWithRetry` call: the value returned
or error thrown, the number of attempts made, and the backoff sleeps
performed (in ms, in order). -/
structure RetryTrace (ρ : Type) where
  result : Except (Option FetchErr) ρ
  attempts : Nat
  sleeps : List Nat

/-- The retry loop of `fetchWithRetry` from loop index `i = retries - fuel`
(so `fuel` iterations remain and `i = retries - 1` exactly when
`fuel = 1`); `lastError` is `undefined` (`none`) before the first failure.
On a failure: retry (after sleeping `delay * 2 ^ i`) only when another
attempt remains and the error is retryable; otherwise the error thrown is
the current one, which on the last attempt is also `lastError`. -/
def runRetryAux {ρ : Type} (oracle : Nat → Except FetchErr ρ) (delay retries : Nat) :
    Nat → Option FetchErr → RetryTrace ρ
  | 0, lastError => ⟨.error lastError, 0, []⟩
  | fuel + 1, _ =>
    let i := retries - (fuel + 1)
    match oracle i with
    | .ok r => ⟨.ok r, 1, []⟩
    | .error e =>
      if fuel ≠ 0 ∧ shouldRetry e = true then
        let rest := runRetryAux oracle delay retries fuel (some e)
        ⟨rest.result, rest.attempts + 1, delay * 2 ^ i :: rest.sleeps⟩
      else ⟨.error (some e), 1, []⟩

/-- `fetchWithRetry(url, config, retries, delay)` with the outcome of the
`i`-th attempt given by `oracle i`. -/
def fetchWithRetry {ρ : Type} (oracle : Nat → Except FetchErr ρ) (retries delay : Nat) :
    RetryTrace ρ :=
  runRetryAux oracle delay retries retries none

/-- One cache entry: `{ data, expiry }` (the stored `timestamp` string is
never read and is not modelled). -/
structure CacheEntry where
  data : List EObj
  expiry : Int

/-- The in-memory `Map`, modelled extensionally. -/
def Cache := String → Option CacheEntry

/-- `cache.set(key, entry)`. -/
def cacheSet (c : Cache) (key : String) (e : CacheEntry) : Cache :=
  fun k => if k = key then some e else c k

/-- The read path `cache.get(key)` guarded by `Date.now() < cached.expiry`:
a stale or absent entry behaves as absent. -/
def cacheFreshLookup (c : Cache) (key : String) (now : Int) : Option CacheEntry :=
  match c key with
  | some e => if now < e.expiry then some e else none
  | none => none

/-- `cleanExpiredCache`: the periodic sweep deletes every entry with
`now > value.expiry`. -/
def cleanExpiredCache (c : Cache) (now : Int) : Cache :=
  fun k =>
    match c k with
    | some e => if now > e.expiry then none else some e
    | none => none

/-- `CACHE_TTL = 5 * 60 * 1000` ms. -/
def CACHE_TTL : Int := 5 * 60 * 1000

/-- `Math.round`: round half away from zero is `floor (q + 1/2)` for the
non-negative remaining-freshness values it is applied to (JS rounds half
up). -/
def jsRound (q : Rat) : Int :=
  (q + 1 / 2).floor

/-- `parseInt(s, 10)`: skip leading whitespace, optional sign, then the
longest digit prefix; `NaN` (`none`) when no digit follows. -/
def jsParseInt (s : String) : Option Int :=
  let cs := s.data.dropWhile (fun c => c = ' ' ∨ c = '\t' ∨ c = '\n' ∨ c = '\r')
  match cs with
  | '-' :: rest => (digitsPrefix rest).map (fun n => -(n : Int))
  | '+' :: rest => (digitsPrefix rest).map (fun n => (n : Int))
  | rest => (digitsPrefix rest).map (fun n => (n : Int))
where
  digitsPrefix (cs : List Char) : Option Nat :=
    let ds := cs.takeWhile Char.isDigit
    if ds = [] then none else some (digitsToNat ds)

/-- Truthiness of an optional query-string parameter. -/
def optTruthy (o : Option String) : Bool :=
  match o with
  | some s => s ≠ ""
  | none => false

/-- The primary response body: `response.data.events || []`. -/
structure EventsResp where
  events : Option (List EObj)

/-- The cache key `` `events_${yearNum}_${monthNum}` ``. -/
def mkCacheKey (yearNum monthNum : Int) : String :=
  "events_" ++ toString yearNum ++ "_" ++ toString monthNum

/-- Observable outcome of one `/api/events` request. -/
inductive GetEventsOutcome where
  | missingParams
  | invalidMonth
  | invalidYear
  | cacheHit (data : List EObj) (expiresIn : Int)
  | noToken
  | fetchFailed (e : Option FetchErr)
  | success (data : List EObj)

/-- The handler after validation: cache check (serving a fresh hit with the
`X-Cache: HIT` / `X-Cache-Expires-In` indicators), then the
`EVENTBRITE_TOKEN` presence check, the primary fetch, the month filter, the
ticket enrichment and the cache store.  The unused `startDate`/`endDate`
strings (only logged) are not modelled.  `primary` is the settled outcome
of the retried primary fetch and `tf` the per-event ticket-fetch oracle. -/
def getEventsAfterValidation (monthNum yearNum : Int) (cache : Cache) (now : Int)
    (hasToken : Bool) (primary : Except (Option FetchErr) EventsResp)
    (tf : Option JVal → Except Unit TCResp) : GetEventsOutcome × Cache :=
  let cacheKey := mkCacheKey yearNum monthNum
  match cacheFreshLookup cache cacheKey now with
  | some e => (.cacheHit e.data (jsRound (((e.expiry - now : Int) : Rat) / 1000)), cache)
  | none =>
    if ¬ hasToken then (.noToken, cache)
    else
      match primary with
      | .error e => (.fetchFailed e, cache)
      | .ok resp =>
        let allEvents := resp.events.getD []
        let filtered := filterEvents allEvents yearNum monthNum
        let enriched := enrichEvents filtered tf
        (.success enriched, cacheSet cache cacheKey ⟨enriched, now + CACHE_TTL⟩)

/-- The `/api/events` handler: missing-parameter check, `parseInt`
validation of month (in `[1,12]`) and year (in `[2000,2100]`), then
`getEventsAfterValidation`. -/
def getEvents (month year : Option String) (cache : Cache) (now : Int) (hasToken : Bool)
    (primary : Except (Option FetchErr) EventsResp)
    (tf : Option JVal → Except Unit TCResp) : GetEventsOutcome × Cache :=
  if ¬ optTruthy month ∨ ¬ optTruthy year then (.missingParams, cache)
  else
    match jsParseInt (month.getD "") with
    | none => (.invalidMonth, cache)
    | some monthNum =>
      if monthNum < 1 ∨ monthNum > 12 then (.invalidMonth, cache)
      else
        match jsParseInt (year.getD "") with
        | none => (.invalidYear, cache)
        | some yearNum =>
          if yearNum < 2000 ∨ yearNum > 2100 then (.invalidYear, cache)
          else getEventsAfterValidation monthNum yearNum cache now hasToken primary tf

/-! ### Helper lemmas -/

theorem length_insertSorted (le : α → α → Bool) (a : α) (l : List α) :
    (insertSorted le a l).length = l.length + 1 := by
  induction l with
  | nil => rfl
  | cons b t ih =>
    by_cases h : le a b = true <;> simp [insertSorted, h, ih]

theorem length_sortByJs (le : α → α → Bool) (l : List α) :
    (sortByJs le l).length = l.length := by
  induction l with
  | nil => rfl
  | cons a t ih => simp [sortByJs, length_insertSorted, ih]

theorem mem_insertSorted {le : α → α → Bool} {a x : α} {l : List α} :
    x ∈ insertSorted le a l ↔ x = a ∨ x ∈ l := by
  induction l with
  | nil => simp [insertSorted]
  | cons b t ih =>
    by_cases h : le a b = true <;> simp [insertSorted, h, ih] <;> try tauto

theorem mem_sortByJs {le : α → α → Bool} {x : α} {l : List α} :
    x ∈ sortByJs le l ↔ x ∈ l := by
  induction l with
  | nil => simp [sortByJs]
  | cons a t ih => simp [sortByJs, mem_insertSorted, ih]

theorem sortByJs_eq_nil_iff {le : α → α → Bool} {l : List α} :
    sortByJs le l = [] ↔ l = [] := by
  constructor
  · intro h
    have := length_sortByJs le l
    rw [h] at this
    exact List.eq_nil_of_length_eq_zero this.symm
  · intro h; subst h; rfl

/-- The head of the stable sort is `le`-below every list element, provided
`le` is reflexive, total and transitive on the elements (predicate `P`). -/
theorem sortByJs_head_min (le : α → α → Bool) (P : α → Prop)
    (hrefl : ∀ a, P a → le a a = true)
    (htot : ∀ a b, P a → P b → le a b = true ∨ le b a = true)
    (htrans : ∀ a b c, P a → P b → P c → le a b = true → le b c = true → le a c = true) :
    ∀ (l : List α), (∀ x ∈ l, P x) → ∀ y rest, sortByJs le l = y :: rest →
      ∀ x ∈ l, le y x = true := by
  intro l
  induction l with
  | nil => intro _ y rest h; cases h
  | cons a t ih =>
    intro hP y rest hsort x hx
    have hPa : P a := hP a (List.mem_cons_self a t)
    have hPt : ∀ z ∈ t, P z := fun z hz => hP z (List.mem_cons_of_mem a hz)
    rw [show sortByJs le (a :: t) = insertSorted le a (sortByJs le t) from rfl] at hsort
    cases hs : sortByJs le t with
    | nil =>
      have ht : t = [] := sortByJs_eq_nil_iff.mp hs
      rw [hs] at hsort
      simp only [insertSorted] at hsort
      obtain ⟨hy, -⟩ := List.cons.inj hsort
      have hxa : x = a := by
        rw [ht] at hx
        simpa using hx
      rw [← hy, hxa]
      exact hrefl a hPa
    | cons h0 r =>
      have hh0t : h0 ∈ t := by
        have hmem : h0 ∈ sortByJs le t := by rw [hs]; exact List.mem_cons_self h0 r
        exact mem_sortByJs.mp hmem
      have hPh0 : P h0 := hPt h0 hh0t
      have hmin : ∀ z ∈ t, le h0 z = true := ih hPt h0 r hs
      rw [hs] at hsort
      by_cases hc : le a h0 = true
      · rw [show insertSorted le a (h0 :: r) = a :: h0 :: r by simp [insertSorted, hc]] at hsort
        obtain ⟨hy, -⟩ := List.cons.inj hsort
        rw [← hy]
        rcases List.mem_cons.mp hx with hxa | hxt
        · rw [hxa]; exact hrefl a hPa
        · exact htrans a h0 x hPa hPh0 (hPt x hxt) hc (hmin x hxt)
      · rw [show insertSorted le a (h0 :: r) = h0 :: insertSorted le a r by
            simp [insertSorted, hc]] at hsort
        obtain ⟨hy, -⟩ := List.cons.inj hsort
        rw [← hy]
        rcases List.mem_cons.mp hx with hxa | hxt
        · rcases htot a h0 hPa hPh0 with h | h
          · exact absurd h hc
          · rw [hxa]; exact h
        · exact hmin x hxt

theorem getField_setField_self (fs : List (String × JVal)) (k : String) (v : JVal) :
    getField (setField fs k v) k = some v := by
  induction fs with
  | nil => simp [setField, getField]
  | cons p rest ih =>
    by_cases h : p.1 = k <;> simp [setField, getField, h, ih]

theorem getField_setField_ne (fs : List (String × JVal)) (k k' : String) (v : JVal)
    (h : k' ≠ k) : getField (setField fs k v) k' = getField fs k' := by
  induction fs with
  | nil => simp [setField, getField, Ne.symm h]
  | cons p rest ih =>
    by_cases hp : p.1 = k
    · simp [setField, getField, hp, Ne.symm h]
    · by_cases hp' : p.1 = k' <;> simp [setField, getField, hp, hp', h, ih]

theorem setField_of_not_mem (fs : List (String × JVal)) (k : String) (v : JVal)
    (h : ∀ p ∈ fs, p.1 ≠ k) : setField fs k v = fs ++ [(k, v)] := by
  induction fs with
  | nil => rfl
  | cons p rest ih =>
    have hp : p.1 ≠ k := h p (List.mem_cons_self p rest)
    simp only [setField, if_neg hp, List.cons_append]
    rw [ih (fun q hq => h q (List.mem_cons_of_mem p hq))]

theorem ticketsToAnalyze_ne_nil {tcs : List TicketClass} (h : tcs ≠ []) :
    ticketsToAnalyze tcs ≠ [] := by
  unfold ticketsToAnalyze
  split
  · next hlen => exact List.ne_nil_of_length_pos hlen
  · exact h

theorem ticketsForPrice_ne_nil {tcs : List TicketClass} (h : tcs ≠ []) :
    ticketsForPrice tcs ≠ [] := by
  unfold ticketsForPrice
  split
  · next hlen => exact List.ne_nil_of_length_pos hlen
  · exact ticketsToAnalyze_ne_nil h

theorem jnumLe_refl (a : JNum) : jnumLe a a = true := by
  cases a <;> simp [jnumLe]

theorem jnumLe_total (a b : JNum) : jnumLe a b = true ∨ jnumLe b a = true := by
  cases a <;> cases b <;> simp [jnumLe] <;> exact le_total _ _

theorem jnumLe_trans_of_ne_nan (a b c : JNum)
    (ha : a ≠ .nan) (hb : b ≠ .nan) (hc : c ≠ .nan)
    (hab : jnumLe a b = true) (hbc : jnumLe b c = true) : jnumLe a c = true := by
  cases a <;> cases b <;> cases c <;>
    simp_all [jnumLe] <;> exact le_trans hab hbc

theorem shouldRetry_of_status_503 {e : FetchErr} (h : e.status = some 503) :
    shouldRetry e = true := by
  simp [shouldRetry, h]

/-- One failing step of the retry loop, with the fuel left abstract so the
recursive occurrence stays folded. -/
theorem runRetryAux_step_error {ρ : Type} (oracle : Nat → Except FetchErr ρ)
    (delay retries fuel : Nat) (last : Option FetchErr) (e : FetchErr)
    (ho : oracle (retries - (fuel + 1)) = .error e) :
    runRetryAux oracle delay retries (fuel + 1) last =
      if fuel ≠ 0 ∧ shouldRetry e = true then
        ⟨(runRetryAux oracle delay retries fuel (some e)).result,
         (runRetryAux oracle delay retries fuel (some e)).attempts + 1,
         delay * 2 ^ (retries - (fuel + 1)) ::
           (runRetryAux oracle delay retries fuel (some e)).sleeps⟩
      else ⟨.error (some e), 1, []⟩ := by
  simp only [runRetryAux, ho]

/-- The all-503 run of the retry loop: with `fuel` of the `retries`
iterations remaining (1 ≤ fuel ≤ retries) and every attempt failing with
status 503, the loop performs exactly `fuel` further attempts, sleeps
`delay * 2 ^ i` after every failed attempt except the last, and throws the
error of attempt `retries - 1`. -/
theorem runRetryAux_all_fail {ρ : Type} (oracle : Nat → Except FetchErr ρ)
    (errs : Nat → FetchErr) (retries delay : Nat)
    (hfail : ∀ i, i < retries → oracle i = .error (errs i))
    (h503 : ∀ i, i < retries → (errs i).status = some 503) :
    ∀ fuel, 1 ≤ fuel → fuel ≤ retries → ∀ last,
      runRetryAux oracle delay retries fuel last =
        ⟨.error (some (errs (retries - 1))), fuel,
         (List.range (fuel - 1)).map (fun j => delay * 2 ^ (retries - fuel + j))⟩ := by
  intro fuel
  induction fuel with
  | zero => intro h; omega
  | succ f ih =>
    intro _ hle last
    have hi : retries - (f + 1) < retries := by omega
    rw [runRetryAux_step_error oracle delay retries f last _ (hfail _ hi)]
    cases f with
    | zero =>
      have hneg : ¬ ((0 : Nat) ≠ 0 ∧ shouldRetry (errs (retries - (0 + 1))) = true) := by simp
      rw [if_neg hneg]
      have : retries - (0 + 1) = retries - 1 := by omega
      rw [this]
      simp
    | succ f' =>
      have hcond : ((f' + 1 : Nat) ≠ 0 ∧ shouldRetry (errs (retries - (f' + 1 + 1))) = true) :=
        ⟨by omega, shouldRetry_of_status_503 (h503 _ hi)⟩
      rw [if_pos hcond, ih (by omega) (by omega) (some (errs (retries - (f' + 1 + 1))))]
      simp only [RetryTrace.mk.injEq]
      refine ⟨trivial, trivial, ?_⟩
      have hpred : f' + 1 + 1 - 1 = f' + 1 := by omega
      have hpred' : f' + 1 - 1 = f' := by omega
      rw [hpred, hpred', List.range_succ_eq_map]
      simp only [List.map_cons, List.map_map, Nat.add_zero]
      refine congrArg₂ _ (by congr 1) ?_
      apply List.map_congr_left
      intro j _
      simp only [Function.comp]
      congr 1
      congr 1
      omega

theorem jsParseInt_empty : jsParseInt "" = none := rfl

theorem ne_empty_of_jsParseInt_some {s : String} {n : Int} (h : jsParseInt s = some n) :
    s ≠ "" := by
  intro he
  rw [he, jsParseInt_empty] at h
  cases h

/-- With both parameters present and parsing into range, the handler
reaches the post-validation stage. -/
theorem getEvents_valid (ms ys : String) (mi yi : Int) (cache : Cache) (now : Int)
    (tok : Bool) (pf : Except (Option FetchErr) EventsResp)
    (tf : Option JVal → Except Unit TCResp)
    (hm : jsParseInt ms = some mi) (hm1 : 1 ≤ mi) (hm2 : mi ≤ 12)
    (hy : jsParseInt ys = some yi) (hy1 : 2000 ≤ yi) (hy2 : yi ≤ 2100) :
    getEvents (some ms) (some ys) cache now tok pf tf =
      getEventsAfterValidation mi yi cache now tok pf tf := by
  have hms : ms ≠ "" := ne_empty_of_jsParseInt_some hm
  have hys : ys ≠ "" := ne_empty_of_jsParseInt_some hy
  unfold getEvents
  rw [if_neg (by simp [optTruthy, hms, hys])]
  simp only [Option.getD_some, hm, hy]
  rw [if_neg (by omega), if_neg (by omega)]

/-- A fresh cache hit short-circuits the handler. -/
theorem getEventsAfterValidation_hit (mi yi : Int) (cache : Cache) (now : Int)
    (tok : Bool) (pf : Except (Option FetchErr) EventsResp)
    (tf : Option JVal → Except Unit TCResp) (e : CacheEntry)
    (hfresh : cacheFreshLookup cache (mkCacheKey yi mi) now = some e) :
    getEventsAfterValidation mi yi cache now tok pf tf =
      (.cacheHit e.data (jsRound (((e.expiry - now : Int) : Rat) / 1000)), cache) := by
  simp only [getEventsAfterValidation]
  rw [hfresh]

/-- Without a fresh cache entry and without a token, the handler raises the
configuration error before any fetch. -/
theorem getEventsAfterValidation_noToken (mi yi : Int) (cache : Cache) (now : Int)
    (pf : Except (Option FetchErr) EventsResp) (tf : Option JVal → Except Unit TCResp)
    (hmiss : cacheFreshLookup cache (mkCacheKey yi mi) now = none) :
    getEventsAfterValidation mi yi cache now false pf tf = (.noToken, cache) := by
  simp only [getEventsAfterValidation]
  rw [hmiss]
  simp

/-! ### Claims -/

def c1EvJan : EObj := [("id", .str "1"), ("start", .obj [("utc", .str "2024-01-31T23:59:59Z")])]

def c1EvFeb1 : EObj := [("id", .str "2"), ("start", .obj [("utc", .str "2024-02-01T00:00:00Z")])]

def c1EvFeb29 : EObj := [("id", .str "3"), ("start", .obj [("utc", .str "2024-02-29T12:00:00Z")])]

def c1EvNoStart : EObj := [("id", .str "9")]

/-- Claim C1: the month filter of `getEvents` keeps exactly the events
whose (UTC) start year and month equal the requested ones, excludes every
event lacking a start timestamp, and on the three sample starts
`2024-01-31T23:59:59Z`, `2024-02-01T00:00:00Z`, `2024-02-29T12:00:00Z` a
February 2024 query keeps exactly the last two. -/
theorem C1_month_filter :
    (∀ (events : List EObj) (y m : Int) (ev : EObj),
        ev ∈ filterEvents events y m ↔ ev ∈ events ∧ eventStartYM ev = some (y, m))
    ∧ (∀ (events : List EObj) (y m : Int) (ev : EObj),
        ev ∈ events → getField ev "start" = none → ev ∉ filterEvents events y m)
    ∧ filterEvents [c1EvJan, c1EvFeb1, c1EvFeb29] 2024 2 = [c1EvFeb1, c1EvFeb29] := by
  refine ⟨?_, ?_, ?_⟩
  · intro events y m ev
    simp only [filterEvents, List.mem_filter]
    cases h : eventStartYM ev with
    | none => simp [h]
    | some p =>
      cases p with
      | mk py pm => simp [h]
  · intro events y m ev hmem hstart
    simp only [filterEvents, List.mem_filter]
    rintro ⟨-, hp⟩
    simp [eventStartYM, hstart] at hp
  · rfl

theorem C1_month_filter_witness :
    c1EvNoStart ∉ filterEvents [c1EvNoStart, c1EvFeb1] 2024 2 :=
  C1_month_filter.2.1 [c1EvNoStart, c1EvFeb1] 2024 2 c1EvNoStart
    (List.mem_cons_self c1EvNoStart [c1EvFeb1]) rfl

/-- Claim C2: enrichment never fails as a whole — one output element per
input element, each output depending only on its own event and that
event's ticket fetch; a fetch-exhausted event still appears, carrying the
degraded `ticket_info` (null numeric fields, default currency `MXN`, null
`is_free`, the non-null `error: 'No disponible'` marker). -/
theorem C2_enrichment_isolation :
    ∀ (events : List EObj) (tf : Option JVal → Except Unit TCResp),
      (enrichEvents events tf).length = events.length
      ∧ (∀ i : Nat, (enrichEvents events tf)[i]? = (events[i]?).map (enrichOne tf))
      ∧ (∀ (tf' : Option JVal → Except Unit TCResp) (ev : EObj),
          tf (getField ev "id") = tf' (getField ev "id") →
          enrichOne tf ev = enrichOne tf' ev)
      ∧ (∀ ev : EObj, tf (getField ev "id") = .error () →
          getField (enrichOne tf ev) "ticket_info" = some (.tinfo failedTicketInfo)
          ∧ failedTicketInfo.base_price = none
          ∧ failedTicketInfo.currency = "MXN"
          ∧ failedTicketInfo.available_tickets = none
          ∧ failedTicketInfo.total_tickets = none
          ∧ failedTicketInfo.is_free = none
          ∧ failedTicketInfo.error = some "No disponible") := by
  intro events tf
  refine ⟨by simp [enrichEvents], ?_, ?_, ?_⟩
  · intro i
    simp [enrichEvents]
  · intro tf' ev h
    simp [enrichOne, h]
  · intro ev h
    refine ⟨?_, rfl, rfl, rfl, rfl, rfl, rfl⟩
    simp [enrichOne, getEventTicketInfo, h, getField_setField_self]

def c2Ev : EObj := [("id", .str "42")]

def c2FailTf : Option JVal → Except Unit TCResp := fun _ => .error ()

theorem C2_enrichment_isolation_witness :
    getField (enrichOne c2FailTf c2Ev) "ticket_info" = some (.tinfo failedTicketInfo) :=
  ((C2_enrichment_isolation [c2Ev] c2FailTf).2.2.2 c2Ev rfl).1


/-- On the main branch (a non-empty class list, hence a non-empty chosen
subset), the ticket info is built from the head of the sorted chosen
subset. -/
theorem computeTicketInfo_main (tcs : List TicketClass) (h : tcs ≠ []) :
    computeTicketInfo tcs =
      { base_price := some (extractBasePrice (cheapestTicket tcs)),
        currency := currencyOr (cheapestTicket tcs).currency,
        available_tickets := some (finalAvailable tcs),
        total_tickets := some (sumTotal tcs),
        is_free := some (decide (extractBasePrice (cheapestTicket tcs) = .fin 0)
          || decide ((cheapestTicket tcs).free = some true)),
        error := none } := by
  have hfp : ticketsForPrice tcs ≠ [] := ticketsForPrice_ne_nil h
  have hlen0 : ¬ tcs.length = 0 := fun hc => h (List.eq_nil_of_length_eq_zero hc)
  have hfplen : ¬ (ticketsForPrice tcs).length = 0 :=
    fun hc => hfp (List.eq_nil_of_length_eq_zero hc)
  rw [computeTicketInfo, if_neg hlen0, if_neg hfplen]

def c3TicketDisplay : TicketClass :=
  { cost := some ⟨some "$5.00", none⟩, currency := some "USD", free := some false,
    hidden := some false, on_sale_status := some "AVAILABLE",
    quantity_total := some 10, quantity_sold := some 0 }

def c3TicketValue : TicketClass :=
  { cost := some ⟨none, some 300⟩, currency := some "USD", free := some false,
    hidden := some false, on_sale_status := some "AVAILABLE",
    quantity_total := some 10, quantity_sold := some 0 }

/-- The price resolution exactly as claim C3 words it: a flagged-free
sub-item is 0 regardless of cost; else the display string parses; failing
that, the minor-unit value is divided by 100. -/
def claimResolvedPrice (t : TicketClass) : JNum :=
  if t.free = some true then .fin 0
  else
    match displayOf t with
    | some d =>
      match displayRegexMatch d with
      | some m => jsParseFloat (removeFirstComma m)
      | none => .fin 0
    | none =>
      match valueOf t with
      | some v => .fin (v / 100)
      | none => .fin 0

/-- Counterexample to claim C3: on two on-sale sub-items — one with only a
display `"$5.00"`, one with only a minor-unit value `300` — the claim's
resolution prices them 5 and 3, so the minimum-priced sub-item would give
basePrice 3; the code sorts by the raw value (300, not 3) and returns
basePrice 5. -/
theorem C3_counterexample :
    claimResolvedPrice c3TicketDisplay = .fin 5
    ∧ claimResolvedPrice c3TicketValue = .fin 3
    ∧ c3TicketValue ∈ ticketsForPrice [c3TicketDisplay, c3TicketValue]
    ∧ (computeTicketInfo [c3TicketDisplay, c3TicketValue]).base_price = some (.fin 5)
    ∧ (computeTicketInfo [c3TicketDisplay, c3TicketValue]).base_price ≠ some (.fin 3) := by
  have h1 : claimResolvedPrice c3TicketDisplay = .fin 5 := by
    rw [show claimResolvedPrice c3TicketDisplay
        = .fin (((5 : Nat) : Rat) + ((0 : Nat) : Rat) / (10 : Rat) ^ 2) from rfl]
    norm_num
  have h2 : claimResolvedPrice c3TicketValue = .fin 3 := by
    rw [show claimResolvedPrice c3TicketValue = .fin ((300 : Rat) / 100) from rfl]
    norm_num
  have hle : jnumLe (getPriceValue c3TicketDisplay) (getPriceValue c3TicketValue) = true := by
    rw [show getPriceValue c3TicketDisplay
        = .fin (((5 : Nat) : Rat) + ((0 : Nat) : Rat) / (10 : Rat) ^ 2) from rfl,
      show getPriceValue c3TicketValue = .fin 300 from rfl]
    simp only [jnumLe, decide_eq_true_eq]
    norm_num
  have hsorted : sortedForPrice [c3TicketDisplay, c3TicketValue]
      = [c3TicketDisplay, c3TicketValue] := by
    show sortByJs _ (ticketsForPrice [c3TicketDisplay, c3TicketValue]) = _
    rw [show ticketsForPrice [c3TicketDisplay, c3TicketValue]
        = [c3TicketDisplay, c3TicketValue] from by decide]
    simp [sortByJs, insertSorted, hle]
  have hcheap : cheapestTicket [c3TicketDisplay, c3TicketValue] = c3TicketDisplay := by
    rw [cheapestTicket, hsorted]
    rfl
  have hbase : (computeTicketInfo [c3TicketDisplay, c3TicketValue]).base_price
      = some (.fin 5) := by
    rw [computeTicketInfo_main _ (by simp), hcheap]
    rw [show extractBasePrice c3TicketDisplay
        = .fin (((5 : Nat) : Rat) + ((0 : Nat) : Rat) / (10 : Rat) ^ 2) from rfl]
    norm_num
  refine ⟨h1, h2, by decide, hbase, ?_⟩
  rw [hbase]
  simp only [ne_eq, Option.some.injEq, JNum.fin.injEq]
  norm_num

def c3ExDisplay : TicketClass :=
  { cost := some ⟨some "$162.17 MXN", none⟩, currency := some "MXN", free := some false,
    hidden := some false, on_sale_status := some "AVAILABLE",
    quantity_total := some 10, quantity_sold := some 0 }

def c3ExValue : TicketClass :=
  { cost := some ⟨none, some 16217⟩, currency := some "MXN", free := some false,
    hidden := some false, on_sale_status := some "AVAILABLE",
    quantity_total := some 10, quantity_sold := some 0 }

def c3ExFree : TicketClass :=
  { cost := some ⟨some "$9.99", some 16217⟩, currency := some "MXN", free := some true,
    hidden := some false, on_sale_status := some "AVAILABLE",
    quantity_total := some 10, quantity_sold := some 0 }

/-- Claim C3 (amended): the chosen subset is sorted by the comparator key
(display parse, else the raw minor-unit value — not divided by 100 — else 0
when flagged free and infinity otherwise); the head of the stable sort,
which has minimal comparator key whenever no key is `NaN`, then determines
basePrice through the separate extraction (free → 0, else display regex
parse, else value / 100, else 0), the currency (defaulted to `MXN`) and
`is_free` (basePrice = 0 or flagged free).  The claim's single-ticket
parsing examples do hold: display `"$162.17 MXN"` gives 162.17, a bare
minor-unit value 16217 gives 162.17, and a flagged-free sub-item gives 0. -/
theorem C3_price_selection_amended :
    (∀ tcs : List TicketClass, tcs ≠ [] →
      ticketsForPrice tcs ≠ []
      ∧ cheapestTicket tcs ∈ ticketsForPrice tcs
      ∧ (computeTicketInfo tcs).base_price = some (extractBasePrice (cheapestTicket tcs))
      ∧ (computeTicketInfo tcs).currency = currencyOr (cheapestTicket tcs).currency
      ∧ (computeTicketInfo tcs).is_free =
          some (decide (extractBasePrice (cheapestTicket tcs) = .fin 0)
            || decide ((cheapestTicket tcs).free = some true))
      ∧ ((∀ t ∈ ticketsForPrice tcs, getPriceValue t ≠ .nan) →
          ∀ t ∈ ticketsForPrice tcs,
            jnumLe (getPriceValue (cheapestTicket tcs)) (getPriceValue t) = true))
    ∧ extractBasePrice c3ExDisplay = .fin (16217 / 100)
    ∧ extractBasePrice c3ExValue = .fin (16217 / 100)
    ∧ extractBasePrice c3ExFree = .fin 0 := by
  refine ⟨?_, ?_, rfl, rfl⟩
  · intro tcs h
    have hfp : ticketsForPrice tcs ≠ [] := ticketsForPrice_ne_nil h
    have hc := computeTicketInfo_main tcs h
    refine ⟨hfp, ?_, by rw [hc], by rw [hc], by rw [hc], ?_⟩
    · cases hs : sortedForPrice tcs with
      | nil => exact absurd (sortByJs_eq_nil_iff.mp hs) hfp
      | cons y r =>
        have hy : cheapestTicket tcs = y := by rw [cheapestTicket, hs]; rfl
        rw [hy]
        have hysort : y ∈ sortedForPrice tcs := by
          rw [hs]
          exact List.mem_cons_self y r
        rw [sortedForPrice] at hysort
        exact mem_sortByJs.mp hysort
    · intro hnan t ht
      cases hs : sortedForPrice tcs with
      | nil => exact absurd (sortByJs_eq_nil_iff.mp hs) hfp
      | cons y r =>
        have hy : cheapestTicket tcs = y := by rw [cheapestTicket, hs]; rfl
        rw [hy]
        rw [sortedForPrice] at hs
        exact sortByJs_head_min
          (fun a b => jnumLe (getPriceValue a) (getPriceValue b))
          (fun t => getPriceValue t ≠ .nan)
          (fun a _ => jnumLe_refl _)
          (fun a b _ _ => jnumLe_total _ _)
          (fun a b c ha hb hc hab hbc =>
            jnumLe_trans_of_ne_nan _ _ _ ha hb hc hab hbc)
          (ticketsForPrice tcs) hnan y r hs t ht
  · rw [show extractBasePrice c3ExDisplay
        = .fin (((162 : Nat) : Rat) + ((17 : Nat) : Rat) / (10 : Rat) ^ 2) from rfl]
    norm_num

theorem C3_price_selection_amended_witness :
    (computeTicketInfo [c3TicketDisplay, c3TicketValue]).base_price
      = some (extractBasePrice (cheapestTicket [c3TicketDisplay, c3TicketValue]))
    ∧ jnumLe (getPriceValue (cheapestTicket [c3TicketDisplay, c3TicketValue]))
        (getPriceValue c3TicketValue) = true :=
  ⟨(C3_price_selection_amended.1 [c3TicketDisplay, c3TicketValue] (by simp)).2.2.1,
   (C3_price_selection_amended.1 [c3TicketDisplay, c3TicketValue] (by simp)).2.2.2.2.2
     (by decide) c3TicketValue (by decide)⟩

/-- Claim C4: when every attempt fails with status 503, `fetchWithRetry`
makes exactly `retries` attempts, sleeps `delay * 2 ^ i` after the `i`-th
failed attempt for `i = 0 .. retries - 2`, and fails terminally with the
error observed on the last attempt. -/
theorem C4_retry_exhaustion {ρ : Type} (oracle : Nat → Except FetchErr ρ)
    (errs : Nat → FetchErr) (retries delay : Nat)
    (hret : 1 ≤ retries)
    (hfail : ∀ i, i < retries → oracle i = .error (errs i))
    (h503 : ∀ i, i < retries → (errs i).status = some 503) :
    fetchWithRetry oracle retries delay =
      ⟨.error (some (errs (retries - 1))), retries,
       (List.range (retries - 1)).map (fun i => delay * 2 ^ i)⟩ := by
  rw [fetchWithRetry,
    runRetryAux_all_fail oracle errs retries delay hfail h503 retries hret le_rfl none]
  simp [Nat.sub_self]

def c4Err : FetchErr := ⟨some 503, none⟩

theorem C4_retry_exhaustion_witness :
    fetchWithRetry (fun _ => (.error c4Err : Except FetchErr Unit)) 3 1000 =
      ⟨.error (some c4Err), 3, [1000, 2000]⟩ := by
  rw [C4_retry_exhaustion (fun _ => .error c4Err) (fun _ => c4Err) 3 1000 (by omega)
    (fun i _ => rfl) (fun i _ => rfl)]
  rfl

/-- Claim C5: `fetchWithRetry` classifies exactly the statuses 502/503/504
and the timeout/connection-abort codes as retryable; a failure classified
non-retryable on the first attempt (a 401, say) propagates immediately —
one attempt, no backoff sleep. -/
theorem C5_retry_classification :
    (∀ e : FetchErr, shouldRetry e = true ↔
        (e.status = some 502 ∨ e.status = some 503 ∨ e.status = some 504)
        ∨ (e.code = some "ECONNABORTED" ∨ e.code = some "ETIMEDOUT"))
    ∧ ∀ (ρ : Type) (oracle : Nat → Except FetchErr ρ) (e : FetchErr) (retries delay : Nat),
        1 ≤ retries → oracle 0 = .error e → shouldRetry e = false →
        fetchWithRetry oracle retries delay = ⟨.error (some e), 1, []⟩ := by
  constructor
  · intro e
    obtain ⟨st, cd⟩ := e
    cases st with
    | none => simp [shouldRetry]
    | some s =>
      simp only [shouldRetry, Bool.or_eq_true, Bool.and_eq_true, decide_eq_true_eq,
        Option.some.injEq, or_assoc]
      constructor
      · rintro (⟨hne, h⟩ | h)
        · rcases h with h | h | h
          · exact Or.inl h
          · exact Or.inr (Or.inl h)
          · exact Or.inr (Or.inr (Or.inl h))
        · exact Or.inr (Or.inr (Or.inr h))
      · rintro (h | h | h | h)
        · exact Or.inl ⟨by omega, Or.inl h⟩
        · exact Or.inl ⟨by omega, Or.inr (Or.inl h)⟩
        · exact Or.inl ⟨by omega, Or.inr (Or.inr h)⟩
        · exact Or.inr h
  · intro ρ oracle e retries delay hret h0 hsr
    obtain ⟨f, rfl⟩ : ∃ f, retries = f + 1 := ⟨retries - 1, by omega⟩
    have ho : oracle (f + 1 - (f + 1)) = .error e := by
      rw [Nat.sub_self]
      exact h0
    rw [fetchWithRetry, runRetryAux_step_error oracle delay (f + 1) f none e ho]
    rw [if_neg (by simp [hsr])]

def c5Err : FetchErr := ⟨some 401, none⟩

theorem C5_retry_classification_witness :
    shouldRetry c5Err = false
    ∧ fetchWithRetry (fun _ => (.error c5Err : Except FetchErr Unit)) 3 1000 =
        ⟨.error (some c5Err), 1, []⟩ :=
  ⟨by decide,
   C5_retry_classification.2 Unit (fun _ => .error c5Err) c5Err 3 1000 (by omega) rfl
     (by decide)⟩

def c6SoldOut : TicketClass :=
  { cost := some ⟨some "$5.00", none⟩, currency := some "MXN", free := some false,
    hidden := some false, on_sale_status := some "AVAILABLE",
    quantity_total := some 5, quantity_sold := some 5 }

def c6HiddenStock : TicketClass :=
  { cost := none, currency := some "MXN", free := some false,
    hidden := some true, on_sale_status := none,
    quantity_total := some 10, quantity_sold := some 0 }

/-- Counterexample to claim C6: one visible, on-sale but sold-out class
(5 of 5 sold) next to one hidden class with 10 unsold seats.  The on-sale
subset is non-empty, so no fallback subset is used for price
determination, and the claim then demands `available_tickets` = the
on-sale sum = 0; the code nonetheless recomputes over all classes as soon
as the sum is 0 and reports 10. -/
theorem C6_counterexample :
    availableTicketsOf [c6SoldOut, c6HiddenStock] = [c6SoldOut]
    ∧ sumMaxAvail (availableTicketsOf [c6SoldOut, c6HiddenStock]) = 0
    ∧ ticketsForPrice [c6SoldOut, c6HiddenStock]
        = availableTicketsOf [c6SoldOut, c6HiddenStock]
    ∧ (computeTicketInfo [c6SoldOut, c6HiddenStock]).available_tickets = some 10 := by
  refine ⟨by decide, by decide, by decide, ?_⟩
  rw [computeTicketInfo_main _ (by simp)]
  decide

/-- Claim C6 (amended): `available_tickets` is the sum over the on-sale
subset of `max(0, total - sold)` whenever that sum is positive; whenever
that sum is 0 — whether or not a fallback subset was used for price
determination — the same sum is recomputed over all sub-items instead. -/
theorem C6_availability_amended (tcs : List TicketClass) (h : tcs ≠ []) :
    (computeTicketInfo tcs).available_tickets
      = some (if sumMaxAvail (availableTicketsOf tcs) > 0
          then sumMaxAvail (availableTicketsOf tcs) else sumMaxAvail tcs)
    ∧ (sumMaxAvail (availableTicketsOf tcs) > 0 →
        (computeTicketInfo tcs).available_tickets
          = some (sumMaxAvail (availableTicketsOf tcs)))
    ∧ (sumMaxAvail (availableTicketsOf tcs) = 0 →
        (computeTicketInfo tcs).available_tickets = some (sumMaxAvail tcs)) := by
  rw [computeTicketInfo_main tcs h]
  refine ⟨rfl, ?_, ?_⟩
  · intro hpos
    simp only [finalAvailable, if_pos hpos]
  · intro hz
    simp only [finalAvailable, hz]
    rfl

theorem C6_availability_amended_witness :
    (computeTicketInfo [c6SoldOut, c6HiddenStock]).available_tickets
      = some (sumMaxAvail [c6SoldOut, c6HiddenStock]) :=
  (C6_availability_amended [c6SoldOut, c6HiddenStock] (by simp)).2.2 (by decide)

/-- Claim C7: the cache read path returns a stored entry only while
`now < expiresAt` and otherwise behaves as absent; on a fresh hit the
handler returns the cached payload with the from-cache indicator and
remaining freshness, independently of the fetch oracles (no network
access); and the periodic sweep never changes what a later read returns. -/
theorem C7_cache_freshness :
    (∀ (c : Cache) (key : String) (now : Int) (e : CacheEntry),
        cacheFreshLookup c key now = some e → c key = some e ∧ now < e.expiry)
    ∧ (∀ (c : Cache) (key : String) (now : Int) (e : CacheEntry),
        c key = some e → ¬ now < e.expiry → cacheFreshLookup c key now = none)
    ∧ (∀ (ms ys : String) (mi yi : Int) (cache : Cache) (now : Int) (tok : Bool)
        (pf pf' : Except (Option FetchErr) EventsResp)
        (tf tf' : Option JVal → Except Unit TCResp) (e : CacheEntry),
        jsParseInt ms = some mi → 1 ≤ mi → mi ≤ 12 →
        jsParseInt ys = some yi → 2000 ≤ yi → yi ≤ 2100 →
        cacheFreshLookup cache (mkCacheKey yi mi) now = some e →
        getEvents (some ms) (some ys) cache now tok pf tf =
          (.cacheHit e.data (jsRound (((e.expiry - now : Int) : Rat) / 1000)), cache)
        ∧ getEvents (some ms) (some ys) cache now tok pf tf
            = getEvents (some ms) (some ys) cache now tok pf' tf')
    ∧ (∀ (c : Cache) (tSweep tRead : Int) (key : String), tSweep ≤ tRead →
        cacheFreshLookup (cleanExpiredCache c tSweep) key tRead
          = cacheFreshLookup c key tRead) := by
  refine ⟨?_, ?_, ?_, ?_⟩
  · intro c key now e h
    rw [cacheFreshLookup] at h
    cases hc : c key with
    | none => rw [hc] at h; cases h
    | some e' =>
      rw [hc] at h
      by_cases hlt : now < e'.expiry
      · simp only [hlt, if_true] at h
        obtain rfl : e' = e := Option.some.inj h
        exact ⟨rfl, hlt⟩
      · simp [hlt] at h
  · intro c key now e hc hlt
    simp [cacheFreshLookup, hc, hlt]
  · intro ms ys mi yi cache now tok pf pf' tf tf' e hm hm1 hm2 hy hy1 hy2 hfresh
    refine ⟨?_, ?_⟩
    · rw [getEvents_valid ms ys mi yi cache now tok pf tf hm hm1 hm2 hy hy1 hy2,
        getEventsAfterValidation_hit mi yi cache now tok pf tf e hfresh]
    · rw [getEvents_valid ms ys mi yi cache now tok pf tf hm hm1 hm2 hy hy1 hy2,
        getEvents_valid ms ys mi yi cache now tok pf' tf' hm hm1 hm2 hy hy1 hy2,
        getEventsAfterValidation_hit mi yi cache now tok pf tf e hfresh,
        getEventsAfterValidation_hit mi yi cache now tok pf' tf' e hfresh]
  · intro c tSweep tRead key hle
    simp only [cacheFreshLookup, cleanExpiredCache]
    cases hc : c key with
    | none => rfl
    | some e =>
      by_cases hgt : tSweep > e.expiry
      · have hnf : ¬ tRead < e.expiry := by omega
        simp [hgt, hnf]
      · simp [hgt]

def c7Entry : CacheEntry := ⟨[], 1000⟩

def c7Cache : Cache := fun k => if k = mkCacheKey 2024 2 then some c7Entry else none

def c7Pf : Except (Option FetchErr) EventsResp := .error none

def c7Tf : Option JVal → Except Unit TCResp := fun _ => .error ()

theorem C7_cache_freshness_witness :
    getEvents (some "2") (some "2024") c7Cache 500 false c7Pf c7Tf
      = (.cacheHit c7Entry.data (jsRound (((c7Entry.expiry - 500 : Int) : Rat) / 1000)),
         c7Cache)
    ∧ cacheFreshLookup (cleanExpiredCache c7Cache 100) (mkCacheKey 2024 2) 500
        = cacheFreshLookup c7Cache (mkCacheKey 2024 2) 500 :=
  ⟨(C7_cache_freshness.2.2.1 "2" "2024" 2 2024 c7Cache 500 false c7Pf c7Pf c7Tf c7Tf
      c7Entry rfl (by omega) (by omega) rfl (by omega) (by omega) rfl).1,
   C7_cache_freshness.2.2.2 c7Cache 100 500 (mkCacheKey 2024 2) (by omega)⟩

/-- The validation exactly as claim C8 words it: the raw string must be an
integer numeral in its entirety. -/
def specStrictInt (s : String) : Option Int :=
  match s.data with
  | [] => none
  | '-' :: rest =>
    if rest ≠ [] ∧ rest.all Char.isDigit then some (-(digitsToNat rest : Int)) else none
  | cs => if cs.all Char.isDigit then some (digitsToNat cs : Int) else none

def emptyCache : Cache := fun _ => none

def c8Pf : Except (Option FetchErr) EventsResp := .error none

def c8Tf : Option JVal → Except Unit TCResp := fun _ => .error ()

/-- Counterexample to claim C8: `"2.5"` is not an integer, yet
`parseInt("2.5", 10)` reads the prefix `2`, so the request passes
validation (here it proceeds all the way to the token check instead of
failing with a validation error). -/
theorem C8_counterexample :
    specStrictInt "2.5" = none
    ∧ jsParseInt "2.5" = some 2
    ∧ getEvents (some "2.5") (some "2024") emptyCache 0 false c8Pf c8Tf
        = (.noToken, emptyCache) :=
  ⟨rfl, rfl, rfl⟩

/-- Claim C8 (amended): the handler fails before any network access
(its result is independent of both fetch oracles) with a missing-parameter
error when either raw parameter is absent or empty, and with a validation
error unless `parseInt(·, 10)` — which accepts any integer prefix, e.g.
`"2.5"` parses as 2 — yields a month in [1,12] and a year in [2000,2100];
with both in range it proceeds past validation. -/
theorem C8_validation_amended :
    (∀ (month year : Option String) (cache : Cache) (now : Int) (tok : Bool)
        (pf : Except (Option FetchErr) EventsResp) (tf : Option JVal → Except Unit TCResp),
        (optTruthy month = false ∨ optTruthy year = false) →
        getEvents month year cache now tok pf tf = (.missingParams, cache))
    ∧ (∀ (ms ys : String) (cache : Cache) (now : Int) (tok : Bool) pf tf,
        ms ≠ "" → ys ≠ "" → jsParseInt ms = none →
        getEvents (some ms) (some ys) cache now tok pf tf = (.invalidMonth, cache))
    ∧ (∀ (ms ys : String) (mi : Int) (cache : Cache) (now : Int) (tok : Bool) pf tf,
        ys ≠ "" → jsParseInt ms = some mi → (mi < 1 ∨ mi > 12) →
        getEvents (some ms) (some ys) cache now tok pf tf = (.invalidMonth, cache))
    ∧ (∀ (ms ys : String) (mi : Int) (cache : Cache) (now : Int) (tok : Bool) pf tf,
        ys ≠ "" → jsParseInt ms = some mi → 1 ≤ mi → mi ≤ 12 → jsParseInt ys = none →
        getEvents (some ms) (some ys) cache now tok pf tf = (.invalidYear, cache))
    ∧ (∀ (ms ys : String) (mi yi : Int) (cache : Cache) (now : Int) (tok : Bool) pf tf,
        jsParseInt ms = some mi → 1 ≤ mi → mi ≤ 12 →
        jsParseInt ys = some yi → (yi < 2000 ∨ yi > 2100) →
        getEvents (some ms) (some ys) cache now tok pf tf = (.invalidYear, cache))
    ∧ (∀ (ms ys : String) (mi yi : Int) (cache : Cache) (now : Int) (tok : Bool) pf tf,
        jsParseInt ms = some mi → 1 ≤ mi → mi ≤ 12 →
        jsParseInt ys = some yi → 2000 ≤ yi → yi ≤ 2100 →
        getEvents (some ms) (some ys) cache now tok pf tf
          = getEventsAfterValidation mi yi cache now tok pf tf) := by
  refine ⟨?_, ?_, ?_, ?_, ?_, ?_⟩
  · intro month year cache now tok pf tf h
    rw [getEvents, if_pos]
    rcases h with h | h
    · exact Or.inl (by simp [h])
    · exact Or.inr (by simp [h])
  · intro ms ys cache now tok pf tf hms hys hparse
    rw [getEvents, if_neg (by simp [optTruthy, hms, hys])]
    simp only [Option.getD_some]
    rw [hparse]
  · intro ms ys mi cache now tok pf tf hys hparse hout
    have hms : ms ≠ "" := ne_empty_of_jsParseInt_some hparse
    rw [getEvents, if_neg (by simp [optTruthy, hms, hys])]
    simp only [Option.getD_some]
    rw [hparse]
    simp [hout]
  · intro ms ys mi cache now tok pf tf hys hparse h1 h2 hyparse
    have hms : ms ≠ "" := ne_empty_of_jsParseInt_some hparse
    have hin : ¬ (mi < 1 ∨ mi > 12) := by omega
    rw [getEvents, if_neg (by simp [optTruthy, hms, hys])]
    simp only [Option.getD_some]
    simp [hparse, hin, hyparse]
  · intro ms ys mi yi cache now tok pf tf hparse h1 h2 hyparse hout
    have hms : ms ≠ "" := ne_empty_of_jsParseInt_some hparse
    have hys : ys ≠ "" := ne_empty_of_jsParseInt_some hyparse
    have hin : ¬ (mi < 1 ∨ mi > 12) := by omega
    rw [getEvents, if_neg (by simp [optTruthy, hms, hys])]
    simp only [Option.getD_some]
    simp [hparse, hin, hyparse, hout]
  · intro ms ys mi yi cache now tok pf tf hm h1 h2 hy h3 h4
    exact getEvents_valid ms ys mi yi cache now tok pf tf hm h1 h2 hy h3 h4

theorem C8_validation_amended_witness :
    getEvents none (some "2024") emptyCache 0 false c8Pf c8Tf
      = (.missingParams, emptyCache)
    ∧ getEvents (some "abc") (some "2024") emptyCache 0 false c8Pf c8Tf
        = (.invalidMonth, emptyCache)
    ∧ getEvents (some "13") (some "2024") emptyCache 0 false c8Pf c8Tf
        = (.invalidMonth, emptyCache) :=
  ⟨C8_validation_amended.1 none (some "2024") emptyCache 0 false c8Pf c8Tf (Or.inl rfl),
   C8_validation_amended.2.1 "abc" "2024" emptyCache 0 false c8Pf c8Tf (by decide)
     (by decide) rfl,
   C8_validation_amended.2.2.1 "13" "2024" 13 emptyCache 0 false c8Pf c8Tf (by decide)
     rfl (by omega)⟩

/-- Claim C9: the `EVENTBRITE_TOKEN` check sits after the cache lookup —
with a fresh entry for the requested month the handler answers from cache
even without the token, and the configuration error is raised exactly when
a cache miss or stale entry forces the upstream path. -/
theorem C9_token_check_after_cache :
    (∀ (ms ys : String) (mi yi : Int) (cache : Cache) (now : Int)
        (pf : Except (Option FetchErr) EventsResp) (tf : Option JVal → Except Unit TCResp)
        (e : CacheEntry),
        jsParseInt ms = some mi → 1 ≤ mi → mi ≤ 12 →
        jsParseInt ys = some yi → 2000 ≤ yi → yi ≤ 2100 →
        cacheFreshLookup cache (mkCacheKey yi mi) now = some e →
        getEvents (some ms) (some ys) cache now false pf tf
          = (.cacheHit e.data (jsRound (((e.expiry - now : Int) : Rat) / 1000)), cache))
    ∧ (∀ (ms ys : String) (mi yi : Int) (cache : Cache) (now : Int)
        (pf : Except (Option FetchErr) EventsResp) (tf : Option JVal → Except Unit TCResp),
        jsParseInt ms = some mi → 1 ≤ mi → mi ≤ 12 →
        jsParseInt ys = some yi → 2000 ≤ yi → yi ≤ 2100 →
        cacheFreshLookup cache (mkCacheKey yi mi) now = none →
        getEvents (some ms) (some ys) cache now false pf tf = (.noToken, cache)) := by
  constructor
  · intro ms ys mi yi cache now pf tf e hm hm1 hm2 hy hy1 hy2 hfresh
    rw [getEvents_valid ms ys mi yi cache now false pf tf hm hm1 hm2 hy hy1 hy2,
      getEventsAfterValidation_hit mi yi cache now false pf tf e hfresh]
  · intro ms ys mi yi cache now pf tf hm hm1 hm2 hy hy1 hy2 hmiss
    rw [getEvents_valid ms ys mi yi cache now false pf tf hm hm1 hm2 hy hy1 hy2,
      getEventsAfterValidation_noToken mi yi cache now pf tf hmiss]

theorem C9_token_check_after_cache_witness :
    getEvents (some "2") (some "2024") c7Cache 500 false c7Pf c7Tf
      = (.cacheHit c7Entry.data (jsRound (((c7Entry.expiry - 500 : Int) : Rat) / 1000)),
         c7Cache)
    ∧ getEvents (some "2") (some "2024") c7Cache 2000 false c7Pf c7Tf
        = (.noToken, c7Cache) :=
  ⟨C9_token_check_after_cache.1 "2" "2024" 2 2024 c7Cache 500 c7Pf c7Tf c7Entry rfl
     (by omega) (by omega) rfl (by omega) (by omega) rfl,
   C9_token_check_after_cache.2 "2" "2024" 2 2024 c7Cache 2000 c7Pf c7Tf rfl
     (by omega) (by omega) rfl (by omega) (by omega) rfl⟩

def c10Event : EObj := [("id", .str "1"), ("ticket_info", .str "old")]

/-- Counterexample to claim C10: the spread `{...event, ticket_info: ...}`
overwrites a pre-existing `ticket_info` field instead of retaining it and
adding a new one — on an event already carrying `ticket_info: "old"` the
output has the same number of fields and the original value is gone. -/
theorem C10_counterexample :
    getField c10Event "ticket_info" = some (.str "old")
    ∧ enrichEvents [c10Event] c2FailTf
        = [[("id", .str "1"), ("ticket_info", .tinfo failedTicketInfo)]]
    ∧ getField (enrichOne c2FailTf c10Event) "ticket_info" ≠ some (.str "old")
    ∧ (enrichOne c2FailTf c10Event).length = c10Event.length := by
  refine ⟨rfl, rfl, ?_, rfl⟩
  have h : getField (enrichOne c2FailTf c10Event) "ticket_info"
      = some (.tinfo failedTicketInfo) := rfl
  rw [h]
  simp

/-- Claim C10 (amended): enrichment preserves order (the `i`-th output
comes from the `i`-th input); every field other than `ticket_info` is
retained unchanged; `ticket_info` is set to the computed ticket info —
appended as a new last field when absent, overwritten in place when the
input already has one. -/
theorem C10_frame_amended :
    (∀ (events : List EObj) (tf : Option JVal → Except Unit TCResp) (i : Nat),
        (enrichEvents events tf)[i]? = (events[i]?).map (enrichOne tf))
    ∧ (∀ (tf : Option JVal → Except Unit TCResp) (ev : EObj) (k : String),
        k ≠ "ticket_info" → getField (enrichOne tf ev) k = getField ev k)
    ∧ (∀ (tf : Option JVal → Except Unit TCResp) (ev : EObj),
        getField (enrichOne tf ev) "ticket_info"
          = some (.tinfo (getEventTicketInfo (tf (getField ev "id")))))
    ∧ (∀ (tf : Option JVal → Except Unit TCResp) (ev : EObj),
        (∀ p ∈ ev, p.1 ≠ "ticket_info") →
        enrichOne tf ev
          = ev ++ [("ticket_info", .tinfo (getEventTicketInfo (tf (getField ev "id"))))]) := by
  refine ⟨?_, ?_, ?_, ?_⟩
  · intro events tf i
    simp [enrichEvents]
  · intro tf ev k hk
    exact getField_setField_ne ev "ticket_info" k _ hk
  · intro tf ev
    exact getField_setField_self ev "ticket_info" _
  · intro tf ev h
    exact setField_of_not_mem ev "ticket_info" _ h

def c10Fresh : EObj := [("id", .str "7"), ("name", .str "x")]

theorem C10_frame_amended_witness :
    getField (enrichOne c2FailTf c10Fresh) "name" = getField c10Fresh "name"
    ∧ enrichOne c2FailTf c10Fresh
        = c10Fresh
          ++ [("ticket_info", .tinfo (getEventTicketInfo (c2FailTf (getField c10Fresh "id"))))] :=
  ⟨C10_frame_amended.2.1 c2FailTf c10Fresh "name" (by decide),
   C10_frame_amended.2.2.2 c2FailTf c10Fresh (by
     intro p hp
     simp [c10Fresh] at hp
     rcases hp with h | h <;> simp [h])⟩
